import Mathlib

/-!
# ClipPulse — verification of the resumable workflow orchestrator

A shallow embedding of the run-orchestration core of the ClipPulse
repository (Google Apps Script), together with proofs about the
behaviour the specification claims.

The embedding covers:

* the persisted run state and the state-store operations of
  `StateStore.js` (`createRunState`, `saveRunState`, `loadRunState`,
  `updateRunStatus`, `updateRunError`, `addProcessedPostId`,
  `setRunPlan`, `cleanupOldRunStates`, ...);
* the orchestrator of `Orchestrator.js` (`startRun`,
  `scheduleCollection`, `continueRun`, `collectXWithTimeout`,
  `moveToNextPhase`, `scheduleContinuation`, `finalizeRun`);
* the X collection loop of `XCollector.js`
  (`collectXViaTweetsSearch`);
* the retry executor of `Retry.js` (`withRetry`).

Modelling conventions:

* Script Properties are split into their two uses: the per-run
  `RUN_STATE_<runId>` records become an association list
  `Env.runStates` keyed directly by `runId` (the constant key prefix
  is a bijection and is dropped), and the scalar `PENDING_RUN_ID`
  property becomes `Env.pendingRunId`.
* The project trigger list (`ScriptApp.getProjectTriggers()`) becomes
  `Env.triggers`, a list of handler-function names.
* JavaScript exceptions become `Except String` results paired with
  the environment as mutated up to the throw point (side effects
  performed before a throw survive it, exactly as in JS).
* External collaborators (the X API, the LLM planner, Drive, the
  spreadsheet formatting call, wall-clock time) are parameters of the
  functions that call them, supplied as explicit dependency records.
* Run states are modelled in the shape produced by `createRunState`,
  where every field is present; the `?.`-guards in the source that
  protect against legacy records missing `xProgress` are therefore
  on total values.  `createdAt`/`updatedAt` timestamps are not
  modelled (no claim mentions them).
-/

/-- Run lifecycle states, from the `RUN_STATUS` constant of
`StateStore.js`. -/
inductive RunStatus where
  | CREATED
  | PLANNING
  | RUNNING_INSTAGRAM
  | RUNNING_X
  | RUNNING_TIKTOK
  | FINALIZING
  | COMPLETED
  | FAILED
deriving DecidableEq, Repr

/-- Per-source progress record (`{collected, target, cursor,
processedIds}`), as initialised by `createRunState`.  Cursors are
opaque pagination tokens; they are modelled as page indices. -/
structure Progress where
  collected : Nat
  target : Nat
  cursor : Option Nat
  processedIds : List String
deriving DecidableEq, Repr

/-- The part of the LLM plan the orchestrator core reads: the
per-source `targetCounts`.  The query-strategy fields of the plan are
opaque to the orchestrator and are carried by the collectors as
explicit parameters instead. -/
structure Plan where
  igTarget : Nat
  xTarget : Nat
  ttTarget : Nat
deriving DecidableEq, Repr

/-- The persisted run record, mirroring the object built by
`createRunState` in `StateStore.js`. -/
structure RunState where
  runId : String
  instruction : String
  status : RunStatus
  plan : Option Plan
  instagramProgress : Progress
  xProgress : Progress
  tiktokProgress : Progress
  spreadsheetId : Option String
  spreadsheetUrl : Option String
  runFolderId : Option String
  instagramFolderId : Option String
  xFolderId : Option String
  tiktokFolderId : Option String
  lastError : Option String
  lastMessage : Option String
deriving DecidableEq, Repr

/-- The mutable world the orchestrator touches: the persisted run
records, the `PENDING_RUN_ID` scalar and the armed project
triggers (handler-function names). -/
structure Env where
  runStates : List (String × RunState)
  pendingRunId : Option String
  triggers : List String
deriving DecidableEq, Repr

/-- `props.setProperty` on the run-state store: overwrite the record
under the key if present, else append it. -/
def setRunProp (m : List (String × RunState)) (k : String) (v : RunState) :
    List (String × RunState) :=
  if m.any (fun p => p.1 = k) then
    m.map (fun p => if p.1 = k then (k, v) else p)
  else
    m ++ [(k, v)]

/-- `createRunState` from `StateStore.js`: the initial record for a
fresh run. -/
def createRunState (runId instruction : String) : RunState :=
  { runId := runId
    instruction := instruction
    status := RunStatus.CREATED
    plan := none
    instagramProgress := { collected := 0, target := 0, cursor := none, processedIds := [] }
    xProgress := { collected := 0, target := 0, cursor := none, processedIds := [] }
    tiktokProgress := { collected := 0, target := 0, cursor := none, processedIds := [] }
    spreadsheetId := none
    spreadsheetUrl := none
    runFolderId := none
    instagramFolderId := none
    xFolderId := none
    tiktokFolderId := none
    lastError := none
    lastMessage := none }

/-- `saveRunState` from `StateStore.js`: full overwrite of the record
keyed by `state.runId`. -/
def saveRunState (e : Env) (st : RunState) : Env :=
  { e with runStates := setRunProp e.runStates st.runId st }

/-- `loadRunState` from `StateStore.js`. -/
def loadRunState (e : Env) (runId : String) : Option RunState :=
  (e.runStates.find? (fun p => p.1 = runId)).map (fun p => p.2)

/-- `deleteRunState` from `StateStore.js`. -/
def deleteRunState (e : Env) (runId : String) : Env :=
  { e with runStates := e.runStates.filter (fun p => ¬(p.1 = runId)) }

/-- `updateRunStatus` from `StateStore.js`; throws when the run record
is missing.  A `none` message corresponds to the `null` default under
which `lastMessage` is left unchanged. -/
def updateRunStatus (e : Env) (runId : String) (status : RunStatus)
    (message : Option String) : Env × Except String Unit :=
  match loadRunState e runId with
  | none => (e, Except.error ("Run state not found for " ++ runId))
  | some st =>
      let st' := { st with
        status := status
        lastMessage := match message with | some m => some m | none => st.lastMessage }
      (saveRunState e st', Except.ok ())

/-- `updateRunError` from `StateStore.js`: records `FAILED` and the
error text. -/
def updateRunError (e : Env) (runId : String) (error : String) :
    Env × Except String Unit :=
  match loadRunState e runId with
  | none => (e, Except.error ("Run state not found for " ++ runId))
  | some st =>
      (saveRunState e { st with status := RunStatus.FAILED, lastError := some error },
       Except.ok ())

/-- `setRunPlan` from `StateStore.js`: stores the plan and copies its
target counts into the per-source progress records. -/
def setRunPlan (e : Env) (runId : String) (plan : Plan) :
    Env × Except String Unit :=
  match loadRunState e runId with
  | none => (e, Except.error ("Run state not found for " ++ runId))
  | some st =>
      let st' := { st with
        plan := some plan
        instagramProgress := { st.instagramProgress with target := plan.igTarget }
        xProgress := { st.xProgress with target := plan.xTarget }
        tiktokProgress := { st.tiktokProgress with target := plan.ttTarget } }
      (saveRunState e st', Except.ok ())

/-- The resource ids passed to `setRunResources` by `startRun`. -/
structure RunResources where
  spreadsheetId : String
  spreadsheetUrl : String
  runFolderId : String
  instagramFolderId : String
  xFolderId : String
  tiktokFolderId : String
deriving DecidableEq, Repr

/-- `setRunResources` from `StateStore.js`, at the call shape used by
`startRun` (every field supplied and non-empty). -/
def setRunResources (e : Env) (runId : String) (r : RunResources) :
    Env × Except String Unit :=
  match loadRunState e runId with
  | none => (e, Except.error ("Run state not found for " ++ runId))
  | some st =>
      let st' := { st with
        spreadsheetId := some r.spreadsheetId
        spreadsheetUrl := some r.spreadsheetUrl
        runFolderId := some r.runFolderId
        instagramFolderId := some r.instagramFolderId
        xFolderId := some r.xFolderId
        tiktokFolderId := some r.tiktokFolderId }
      (saveRunState e st', Except.ok ())

/-- `getRunSummary` from `StateStore.js`, restricted to the fields
`finalizeRun` reads. -/
structure RunSummary where
  instagramCollected : Nat
  instagramTarget : Nat
  xCollected : Nat
  xTarget : Nat
  tiktokCollected : Nat
  tiktokTarget : Nat
deriving DecidableEq, Repr

/-- The summary `getRunSummary` derives from a loaded run record. -/
def runSummaryOf (st : RunState) : RunSummary :=
  { instagramCollected := st.instagramProgress.collected
    instagramTarget := st.instagramProgress.target
    xCollected := st.xProgress.collected
    xTarget := st.xProgress.target
    tiktokCollected := st.tiktokProgress.collected
    tiktokTarget := st.tiktokProgress.target }

/-- `listAllRunIds` from `StateStore.js`: the keys of the run-state
store (the `RUN_STATE_` prefix is stripped by construction here). -/
def listAllRunIds (e : Env) : List String :=
  e.runStates.map (fun p => p.1)

/-- `cleanupOldRunStates` from `StateStore.js`: sort the run ids
(JavaScript default string sort, i.e. lexicographic), reverse to get
newest-first, and delete every run beyond the first `keepCount`.
Returns the number of deleted runs. -/
def cleanupOldRunStates (e : Env) (keepCount : Nat) : Env × Nat :=
  let runIds := ((listAllRunIds e).mergeSort (fun a b => a ≤ b)).reverse
  let toDelete := runIds.drop keepCount
  (toDelete.foldl (fun acc runId => deleteRunState acc runId) e, toDelete.length)

/-- `PropertiesService...deleteProperty('PENDING_RUN_ID')`. -/
def deletePendingRun (e : Env) : Env :=
  { e with pendingRunId := none }

/-- `cleanupTriggers` from `Orchestrator.js`: delete every project
trigger whose handler function is `continueRun`. -/
def cleanupTriggers (e : Env) : Env :=
  { e with triggers := e.triggers.filter (fun t => ¬(t = "continueRun")) }

/-- `scheduleContinuation` from `Orchestrator.js`: set the pending-run
marker and arm a new `continueRun` trigger.  Note: unlike
`scheduleCollection`, it does not delete existing triggers first. -/
def scheduleContinuation (e : Env) (runId : String) : Env :=
  { e with
    pendingRunId := some runId
    triggers := e.triggers ++ ["continueRun"] }

/-- `scheduleCollection` from `Orchestrator.js`: delete every armed
`continueRun` trigger, arm a fresh one, then set the pending-run
marker. -/
def scheduleCollection (e : Env) (runId : String) : Env :=
  { e with
    triggers := e.triggers.filter (fun t => ¬(t = "continueRun")) ++ ["continueRun"]
    pendingRunId := some runId }

/-- Result record returned by the X collectors
(`{collected, skipped}`). -/
structure XCollectRes where
  collected : Nat
  skipped : Nat
deriving DecidableEq, Repr

/-- External dependencies of `collectXWithTimeout`: configuration
flags, the two collector calls (which run under the time-budget
callback and may throw, in particular the distinguished `TIMEOUT`
signal), the query-expansion step and the remaining-time test that
guards the second collection pass. -/
structure XStageDeps where
  xConfigured : Bool
  mockMode : Bool
  collect : Env → Env × Except String XCollectRes
  expandPlan : Env → Plan → Plan
  timeLeftForExpansion : Bool
  collectExpanded : Plan → Env → Env × Except String XCollectRes

/-- The `completedPhase === 'x'` branch of `moveToNextPhase` in
`Orchestrator.js`: advance to TikTok when the plan asks for TikTok
items, else to `FINALIZING`, and schedule a continuation either
way. -/
def moveToNextPhaseX (e : Env) (runId : String) : Env × Except String Unit :=
  match loadRunState e runId with
  | none => (e, Except.error "TypeError: Cannot read properties of null")
  | some st =>
      match st.plan with
      | none => (e, Except.error "TypeError: Cannot read properties of null")
      | some plan =>
          if 0 < plan.ttTarget then
            let (e₁, r) := updateRunStatus e runId RunStatus.RUNNING_TIKTOK
              (some "Collecting TikTok data...")
            match r with
            | Except.error m => (e₁, Except.error m)
            | Except.ok _ => (scheduleContinuation e₁ runId, Except.ok ())
          else
            let (e₁, r) := updateRunStatus e runId RunStatus.FINALIZING
              (some "Finalizing...")
            match r with
            | Except.error m => (e₁, Except.error m)
            | Except.ok _ => (scheduleContinuation e₁ runId, Except.ok ())

/-- The `try`-block body of `collectXWithTimeout`: run the collector,
expand the search and collect again when under target and time
remains, then advance to the next phase.  Any throw from inside
(including the `TIMEOUT` signal raised by the budget callback)
escapes as an `Except.error`. -/
def xStageBody (deps : XStageDeps) (runId : String) (plan : Plan) (e : Env) :
    Env × Except String Unit :=
  let (e₁, r₁) := deps.collect e
  match r₁ with
  | Except.error m => (e₁, Except.error m)
  | Except.ok res =>
      if res.collected < plan.xTarget then
        let p₂ := deps.expandPlan e₁ plan
        let (e₂, r₂) := setRunPlan e₁ runId p₂
        match r₂ with
        | Except.error m => (e₂, Except.error m)
        | Except.ok _ =>
            if deps.timeLeftForExpansion then
              let (e₃, r₃) := deps.collectExpanded p₂ e₂
              match r₃ with
              | Except.error m => (e₃, Except.error m)
              | Except.ok _ => moveToNextPhaseX e₃ runId
            else
              moveToNextPhaseX e₂ runId
      else
        moveToNextPhaseX e₁ runId

/-- `collectXWithTimeout` from `Orchestrator.js`: skip the stage when
X is not configured (outside mock mode), otherwise run the stage body
and catch exactly the error whose message is `TIMEOUT`, turning it
into a scheduled continuation; every other error is rethrown. -/
def collectXWithTimeout (deps : XStageDeps) (runId : String) (plan : Plan)
    (e : Env) : Env × Except String Unit :=
  match loadRunState e runId with
  | none => (e, Except.error "TypeError: Cannot read properties of null")
  | some _ =>
      if ¬deps.xConfigured ∧ ¬deps.mockMode then
        let (e₁, r) := updateRunStatus e runId RunStatus.RUNNING_X
          (some "X API not configured; skipping")
        match r with
        | Except.error m => (e₁, Except.error m)
        | Except.ok _ => moveToNextPhaseX e₁ runId
      else
        let (e₁, r) := xStageBody deps runId plan e
        match r with
        | Except.ok _ => (e₁, Except.ok ())
        | Except.error m =>
            if m = "TIMEOUT" then (scheduleContinuation e₁ runId, Except.ok ())
            else (e₁, Except.error m)

/-- `continueRun` from `Orchestrator.js`, parametrised by the phase
executor (`executeRunPhase`): no pending run is a no-op; a missing
record clears the marker; a terminal run clears the marker and the
triggers; otherwise the executor runs and any error it raises marks
the run `FAILED`, clears the marker and cancels the triggers. -/
def continueRunWith (exec : String → RunState → Env → Env × Except String Unit)
    (e : Env) : Env × Except String Unit :=
  match e.pendingRunId with
  | none => (e, Except.ok ())
  | some runId =>
      match loadRunState e runId with
      | none => (deletePendingRun e, Except.ok ())
      | some st =>
          if st.status = RunStatus.COMPLETED ∨ st.status = RunStatus.FAILED then
            (cleanupTriggers (deletePendingRun e), Except.ok ())
          else
            let (e₁, r) := exec runId st e
            match r with
            | Except.ok _ => (e₁, Except.ok ())
            | Except.error msg =>
                let (e₂, r₂) := updateRunError e₁ runId msg
                match r₂ with
                | Except.error m => (e₂, Except.error m)
                | Except.ok _ =>
                    (cleanupTriggers (deletePendingRun e₂), Except.ok ())

/-- The warning completion message `finalizeRun` builds when zero
items were collected across all sources (template literal from
`Orchestrator.js`). -/
def zeroCollectedMessage (metaAuth xConfig : Bool) : String :=
  "WARNING: No data collected (0 posts).\n" ++
  "Platform status: Instagram authorized: " ++ toString metaAuth ++
  ", X configured: " ++ toString xConfig ++ "\n" ++
  "Please check platform configuration."

/-- The normal completion message `finalizeRun` builds from the run
summary (template literal from `Orchestrator.js`). -/
def completedMessage (s : RunSummary) : String :=
  "Completed: Instagram " ++ toString s.instagramCollected ++ "/" ++
  toString s.instagramTarget ++ ", " ++
  "X " ++ toString s.xCollected ++ "/" ++ toString s.xTarget ++ ", " ++
  "TikTok " ++ toString s.tiktokCollected ++ "/" ++ toString s.tiktokTarget

/-- External dependencies of `finalizeRun`: the outcome of the
spreadsheet-formatting call and of the Drive manifest write (both
outside the modelled environment), and the two platform flags read
for the zero-collected warning. -/
structure FinalizeDeps where
  finalizeSheetResult : Except String Unit
  manifestResult : Except String Unit
  metaAuthorized : Bool
  xConfigured : Bool

/-- `finalizeRun` from `Orchestrator.js`: format the spreadsheet, save
the manifest, mark the run `COMPLETED` with either the zero-collected
warning (plus a platform snapshot) or the normal summary message,
then clear the pending-run marker and the triggers.  Its `catch`
records a finalization error on the run and returns normally. -/
def finalizeRun (deps : FinalizeDeps) (runId : String) (e : Env) :
    Env × Except String Unit :=
  match loadRunState e runId with
  | none => (e, Except.error "TypeError: Cannot read properties of null")
  | some st =>
      let body : Env × Except String Unit :=
        match deps.finalizeSheetResult with
        | Except.error m => (e, Except.error m)
        | Except.ok _ =>
            match deps.manifestResult with
            | Except.error m => (e, Except.error m)
            | Except.ok _ =>
                let summary := runSummaryOf st
                let totalCollected := summary.instagramCollected +
                  summary.xCollected + summary.tiktokCollected
                let msg :=
                  if totalCollected = 0 then
                    zeroCollectedMessage deps.metaAuthorized deps.xConfigured
                  else
                    completedMessage summary
                let (e₁, r) := updateRunStatus e runId RunStatus.COMPLETED (some msg)
                match r with
                | Except.error m => (e₁, Except.error m)
                | Except.ok _ => (cleanupTriggers (deletePendingRun e₁), Except.ok ())
      match body with
      | (e₁, Except.ok _) => (e₁, Except.ok ())
      | (e₁, Except.error m) =>
          let (e₂, r₂) := updateRunError e₁ runId ("Finalization error: " ++ m)
          match r₂ with
          | Except.error m' => (e₂, Except.error m')
          | Except.ok _ => (e₂, Except.ok ())

/-- External dependencies of `startRun`: configuration validation,
the two platform-availability probes, mock mode, the generated run
id, the LLM planner call, and the Drive/Sheets resource creation
(external services that may throw). -/
structure StartDeps where
  mockMode : Bool
  configValid : Bool
  missingKeys : List String
  metaAuthorized : Bool
  xConfigured : Bool
  newRunId : String
  parsePlan : String → Except String Plan
  createFolders : Except String RunResources
  createSpreadsheet : Except String Unit

/-- The value `startRun` returns on success. -/
structure StartResult where
  runId : String
  status : RunStatus
deriving DecidableEq, Repr

/-- The error message `startRun` throws when configuration keys are
missing. -/
def missingConfigMessage (keys : List String) : String :=
  "Missing configuration: " ++ String.intercalate ", " keys

/-- The error message `startRun` throws when no platform is
configured. -/
def noPlatformsMessage : String :=
  "No platforms configured for data collection.\n\n" ++
  "To enable X (Twitter):\n  - Add X_API_KEY to Script Properties\n\n" ++
  "To enable Instagram:\n  - Complete Meta OAuth authorization\n" ++
  "  - Run logAuthUrls() to get the authorization URL\n\n" ++
  "At least one platform must be configured to collect data."

/-- `startRun` from `Orchestrator.js`: validate configuration and
platform availability (outside mock mode) *before* creating any
state; then create and persist the initial run record, plan, create
the Drive/Sheets resources, store their ids, and schedule the
collection.  An error inside the `try` marks the run `FAILED` and is
rethrown. -/
def startRun (deps : StartDeps) (instruction : String)
    (externalRunId : Option String) (e : Env) :
    Env × Except String StartResult :=
  if ¬deps.mockMode ∧ ¬deps.configValid then
    (e, Except.error (missingConfigMessage deps.missingKeys))
  else if ¬deps.mockMode ∧ ¬deps.metaAuthorized ∧ ¬deps.xConfigured then
    (e, Except.error noPlatformsMessage)
  else
    let runId := match externalRunId with | some r => r | none => deps.newRunId
    let e₁ := saveRunState e (createRunState runId instruction)
    let body : Env × Except String StartResult :=
      let (e₂, r₂) := updateRunStatus e₁ runId RunStatus.PLANNING
        (some "Parsing instruction...")
      match r₂ with
      | Except.error m => (e₂, Except.error m)
      | Except.ok _ =>
          match deps.parsePlan instruction with
          | Except.error m => (e₂, Except.error m)
          | Except.ok plan =>
              let (e₃, r₃) := setRunPlan e₂ runId plan
              match r₃ with
              | Except.error m => (e₃, Except.error m)
              | Except.ok _ =>
                  let (e₄, r₄) := updateRunStatus e₃ runId RunStatus.PLANNING
                    (some "Creating folder structure...")
                  match r₄ with
                  | Except.error m => (e₄, Except.error m)
                  | Except.ok _ =>
                      match deps.createFolders with
                      | Except.error m => (e₄, Except.error m)
                      | Except.ok folders =>
                          let (e₅, r₅) := updateRunStatus e₄ runId RunStatus.PLANNING
                            (some "Creating spreadsheet...")
                          match r₅ with
                          | Except.error m => (e₅, Except.error m)
                          | Except.ok _ =>
                              match deps.createSpreadsheet with
                              | Except.error m => (e₅, Except.error m)
                              | Except.ok _ =>
                                  let (e₆, r₆) := setRunResources e₅ runId folders
                                  match r₆ with
                                  | Except.error m => (e₆, Except.error m)
                                  | Except.ok _ =>
                                      (scheduleCollection e₆ runId,
                                       Except.ok { runId := runId,
                                                   status := RunStatus.PLANNING })
    match body with
    | (eB, Except.ok res) => (eB, Except.ok res)
    | (eB, Except.error m) =>
        let (eC, rC) := updateRunError eB runId m
        match rC with
        | Except.error m' => (eC, Except.error m')
        | Except.ok _ => (eC, Except.error m)

/-!
## The X collection loop (`collectXViaTweetsSearch`)

The loop is modelled against the persisted X-stage state of the run:
the `xProgress` record (`collected`, `cursor`, `processedIds`) plus
the rows already appended to the run's spreadsheet for the `x`
source.  The external Advanced-Search API is modelled as a fixed
list of result pages (tweet ids); the opaque pagination token
becomes the page index, with `none` standing for the initial `null`
cursor.  The cooperative time budget is modelled by the number of
`onProgress` callbacks that are allowed to return before the
callback raises the `TIMEOUT` signal (`none` = an unbounded
invocation whose callback never raises).
-/

/-- The persisted state the X collection loop reads and writes: the
`xProgress` checkpoint and the spreadsheet rows already written for
the `x` source. -/
structure XSt where
  collected : Nat
  cursor : Option Nat
  processedIds : List String
  rows : List String
deriving DecidableEq, Repr

/-- The `platform === 'x'` branch of `addProcessedPostId` in
`StateStore.js`: append the id to the persisted ledger unless it is
already present. -/
def addProcessedPostIdX (pids : List String) (postId : String) : List String :=
  if pids.contains postId then pids else pids ++ [postId]

/-- The page index a cursor denotes (`null` means the first page). -/
def cursorIdx (cursor : Option Nat) : Nat :=
  match cursor with
  | none => 0
  | some i => i

/-- `searchTweets` against the page-list model of the Advanced-Search
API: the tweets of the addressed page, the `has_next_page` flag and
the `next_cursor` token. -/
def searchTweets (pages : List (List String)) (cursor : Option Nat) :
    List String × Bool × Option Nat :=
  (pages.getD (cursorIdx cursor) [], decide (cursorIdx cursor + 1 < pages.length),
   some (cursorIdx cursor + 1))

/-- Result of the per-page `for (const tweet of result.tweets)` loop:
the updated collected count, persisted ledger, local duplicate set
and pending-write buffer. -/
structure ProcRes where
  collected : Nat
  pids : List String
  lids : List String
  buf : List String
deriving DecidableEq, Repr

/-- The per-page tweet loop of `collectXViaTweetsSearch`: stop at the
target; drop ids found in the local set or the persisted ledger;
otherwise buffer the normalized post, record the id in both and
increment the count (`processXTweet` always reports the tweet as
processed). -/
def procTweets (target : Nat) :
    List String → Nat → List String → List String → List String → ProcRes
  | [], collected, pids, lids, buf =>
      { collected := collected, pids := pids, lids := lids, buf := buf }
  | t :: rest, collected, pids, lids, buf =>
      if target ≤ collected then
        { collected := collected, pids := pids, lids := lids, buf := buf }
      else if lids.contains t || pids.contains t then
        procTweets target rest collected pids lids buf
      else
        procTweets target rest (collected + 1) (addProcessedPostIdX pids t)
          (lids ++ [t]) (buf ++ [t])

/-- The state the loop leaves behind when it returns normally: flush
the pending buffer if non-empty (appending the rows and persisting
`{collected, cursor}`), else leave the last persisted snapshot
`(pc, pcur)` in place. -/
def xFinish (collected : Nat) (cursor : Option Nat)
    (pids rows buf : List String) (pc : Nat) (pcur : Option Nat) : XSt × Bool :=
  if buf.isEmpty then
    ({ collected := pc, cursor := pcur, processedIds := pids, rows := rows }, true)
  else
    ({ collected := collected, cursor := cursor, processedIds := pids,
       rows := rows ++ buf }, true)

/-- Decrement the remaining `onProgress` allowance after a callback
returns (an unbounded invocation stays unbounded). -/
def tickBudget : Option Nat → Option Nat
  | some (n + 1) => some n
  | b => b

/-- The `while (collected < targetCount && attempts < maxAttempts)`
loop of `collectXViaTweetsSearch`.  `fuel` is the number of page
attempts still allowed (starting at `maxAttempts = 20`); `budget` is
the number of `onProgress` callbacks allowed before `TIMEOUT`
(`none` = unlimited, `some 0` = the next callback raises).  The live
loop variables are carried next to the persisted snapshot
`(pc, pcur)`; the persisted ledger `pids` and the sheet `rows` are
updated in place as in the source.  The `Bool` is `false` exactly
when the invocation ended in the `TIMEOUT` signal, in which case the
returned `XSt` is the persisted state at the throw point. -/
def xLoop (pages : List (List String)) (bs target : Nat) :
    Nat → Option Nat → Nat → Option Nat →
    List String → List String → List String → List String →
    Nat → Option Nat → XSt × Bool
  | 0, _, collected, cursor, pids, rows, buf, _, pc, pcur =>
      xFinish collected cursor pids rows buf pc pcur
  | fuel + 1, budget, collected, cursor, pids, rows, buf, lids, pc, pcur =>
      if target ≤ collected then
        xFinish collected cursor pids rows buf pc pcur
      else
        let tweets := pages.getD (cursorIdx cursor) []
        let hasMore := decide (cursorIdx cursor + 1 < pages.length)
        let next : Option Nat := some (cursorIdx cursor + 1)
        if tweets.isEmpty then
          xFinish collected cursor pids rows buf pc pcur
        else
          let r := procTweets target tweets collected pids lids buf
          if bs ≤ r.buf.length ∨ hasMore = false then
            if r.buf.isEmpty then
              if hasMore then
                xLoop pages bs target fuel budget r.collected next r.pids rows
                  [] r.lids pc pcur
              else
                ({ collected := pc, cursor := pcur, processedIds := r.pids,
                   rows := rows }, true)
            else
              let rows₂ := rows ++ r.buf
              if budget = some 0 then
                ({ collected := r.collected, cursor := next,
                   processedIds := r.pids, rows := rows₂ }, false)
              else
                if hasMore then
                  xLoop pages bs target fuel (tickBudget budget) r.collected next
                    r.pids rows₂ [] r.lids r.collected next
                else
                  ({ collected := r.collected, cursor := next,
                     processedIds := r.pids, rows := rows₂ }, true)
          else
            xLoop pages bs target fuel budget r.collected next r.pids rows
              r.buf r.lids pc pcur

/-- One invocation of `collectXViaTweetsSearch`: load the persisted
checkpoint, run up to `maxAttempts = 20` page fetches with an empty
local duplicate set and an empty pending-write buffer, and return
the persisted state together with `true` when the invocation ran to
normal return (`false` = it raised `TIMEOUT`). -/
def collectXViaTweetsSearch (pages : List (List String)) (bs target : Nat)
    (budget : Option Nat) (s : XSt) : XSt × Bool :=
  xLoop pages bs target 20 budget s.collected s.cursor s.processedIds s.rows
    [] [] s.collected s.cursor

/-- A run of the stage split across budget-limited continuation
invocations against the same source: each invocation resumes from
the persisted checkpoint; the run is complete (`true`) as soon as an
invocation returns without raising `TIMEOUT`. -/
def runContinuations (pages : List (List String)) (bs target : Nat) :
    List (Option Nat) → XSt → XSt × Bool
  | [], s => (s, false)
  | b :: rest, s =>
      let r := collectXViaTweetsSearch pages bs target b s
      if r.2 then (r.1, true) else runContinuations pages bs target rest r.1

/-- Parameters of one stage invocation (page stream, batch size,
target, budget) — the stream and targets may differ between
invocations, e.g. after a query expansion. -/
structure InvSpec where
  pages : List (List String)
  bs : Nat
  target : Nat
  budget : Option Nat

/-- Chain an arbitrary sequence of stage invocations, each resuming
from the persisted checkpoint of the previous one (whether or not it
timed out). -/
def runInvocations : List InvSpec → XSt → XSt
  | [], s => s
  | i :: rest, s =>
      runInvocations rest (collectXViaTweetsSearch i.pages i.bs i.target i.budget s).1

/-!
## The retry executor (`withRetry`)

The wrapped unit of work is modelled as a function from the attempt
index to its outcome; `Math.random() * 1000` is modelled as an
environment-supplied jitter function bounded by `1000`; the
`Utilities.sleep` calls are recorded.  All durations are in
milliseconds as in the source.
-/

/-- Trace of one `withRetry` execution: the final outcome (the value
returned, or the error rethrown), the number of times the wrapped
function was invoked, and the recorded backoff sleeps in order. -/
structure RetryTrace (α : Type) where
  result : Except String α
  calls : Nat
  sleeps : List Nat
deriving Repr

/-- The `for (let attempt = 0; attempt <= maxRetries; attempt++)`
loop of `withRetry`, with `fuel = maxRetries + 1 - attempt` remaining
iterations.  On failure the loop rethrows once attempts are exhausted
or `shouldRetry` declines, else sleeps
`min(baseDelay * 2 ^ attempt + jitter, maxDelay)` and retries. -/
def retryGo {α : Type} (f : Nat → Except String α)
    (shouldRetry : String → Nat → Bool) (jitter : Nat → Nat)
    (maxRetries baseDelayMs maxDelayMs : Nat) :
    Nat → Nat → RetryTrace α
  | _, 0 => { result := Except.error "", calls := 0, sleeps := [] }
  | attempt, fuel + 1 =>
      match f attempt with
      | Except.ok a => { result := Except.ok a, calls := 1, sleeps := [] }
      | Except.error e =>
          if maxRetries ≤ attempt then
            { result := Except.error e, calls := 1, sleeps := [] }
          else if ¬shouldRetry e attempt then
            { result := Except.error e, calls := 1, sleeps := [] }
          else
            let delay := min (baseDelayMs * 2 ^ attempt + jitter attempt) maxDelayMs
            let t := retryGo f shouldRetry jitter maxRetries baseDelayMs maxDelayMs
              (attempt + 1) fuel
            { result := t.result, calls := t.calls + 1, sleeps := delay :: t.sleeps }

/-- `withRetry` from `Retry.js` with the option defaults already
resolved: run the wrapped function for attempts `0..maxRetries`. -/
def withRetry {α : Type} (f : Nat → Except String α)
    (shouldRetry : String → Nat → Bool) (jitter : Nat → Nat)
    (maxRetries baseDelayMs maxDelayMs : Nat) : RetryTrace α :=
  retryGo f shouldRetry jitter maxRetries baseDelayMs maxDelayMs 0 (maxRetries + 1)

theorem find?_map_replace (m : List (String × RunState)) (k : String) (v : RunState)
    (h : m.any (fun p => p.1 = k) = true) :
    (m.map (fun p => if p.1 = k then (k, v) else p)).find? (fun p => p.1 = k) =
      some (k, v) := by
  induction m with
  | nil => simp at h
  | cons p rest ih =>
      simp only [List.any_cons, Bool.or_eq_true] at h
      by_cases hp : p.1 = k
      · simp [hp, List.find?]
      · simp only [List.map_cons, if_neg hp, List.find?_cons, decide_eq_false hp]
        exact ih (h.resolve_left (by simp [hp]))

theorem find?_append_new (m : List (String × RunState)) (k : String) (v : RunState)
    (h : m.any (fun p => p.1 = k) = false) :
    (m ++ [(k, v)]).find? (fun p => p.1 = k) = some (k, v) := by
  induction m with
  | nil => simp [List.find?]
  | cons p rest ih =>
      simp only [List.any_cons, Bool.or_eq_false_iff] at h
      simp only [List.cons_append, List.find?_cons, h.1]
      exact ih h.2

theorem loadRunState_saveRunState_self (e : Env) (st : RunState) :
    loadRunState (saveRunState e st) st.runId = some st := by
  unfold loadRunState saveRunState setRunProp
  by_cases h : e.runStates.any (fun p => p.1 = st.runId) = true
  · simp only [h, if_true]
    rw [find?_map_replace _ _ _ h]
    simp
  · simp only [Bool.not_eq_true] at h
    simp only [h, Bool.false_eq_true, if_false]
    rw [find?_append_new _ _ _ h]
    simp

/-- C3: the invariant "at most one armed `continueRun` trigger" is
broken by the code: `scheduleContinuation` creates a new trigger
without deleting existing ones, so from a state with one armed
`continueRun` trigger it leaves two. -/
theorem scheduleContinuation_stacks_triggers :
    (scheduleContinuation
      { runStates := [], pendingRunId := none, triggers := ["continueRun"] }
      "run1").triggers.count "continueRun" = 2 := by decide

/-- C6: `startRun` with zero usable sources (Instagram not
authorized and X not configured, outside mock mode) throws a
descriptive error — the missing-configuration or the no-platforms
message — and leaves the environment untouched, so no `RunState` is
persisted for any run id that call would have allocated. -/
theorem startRun_failfast (deps : StartDeps) (instruction : String)
    (ext : Option String) (e : Env)
    (hmock : deps.mockMode = false) (hmeta : deps.metaAuthorized = false)
    (hx : deps.xConfigured = false) :
    startRun deps instruction ext e =
      (e, Except.error (if deps.configValid then noPlatformsMessage
        else missingConfigMessage deps.missingKeys)) := by
  unfold startRun
  by_cases hc : deps.configValid = true
  · simp [hmock, hmeta, hx, hc]
  · simp only [Bool.not_eq_true] at hc
    simp [hmock, hmeta, hx, hc]

/-- C7: `continueRun` with no pending-run marker is a no-op; invoked
on a pending run whose status is terminal it changes no run state,
clears the stale marker and every armed `continueRun` trigger, and an
immediate second call changes nothing. -/
theorem continueRun_noop_and_terminal :
    (∀ (f : String → RunState → Env → Env × Except String Unit) (e : Env),
        e.pendingRunId = none → continueRunWith f e = (e, Except.ok ())) ∧
    (∀ (f : String → RunState → Env → Env × Except String Unit) (e : Env)
        (runId : String) (st : RunState),
        e.pendingRunId = some runId →
        loadRunState e runId = some st →
        (st.status = RunStatus.COMPLETED ∨ st.status = RunStatus.FAILED) →
        (continueRunWith f e).2 = Except.ok () ∧
        (continueRunWith f e).1.runStates = e.runStates ∧
        (continueRunWith f e).1.pendingRunId = none ∧
        "continueRun" ∉ (continueRunWith f e).1.triggers ∧
        continueRunWith f (continueRunWith f e).1 =
          ((continueRunWith f e).1, Except.ok ())) := by
  constructor
  · intro f e h
    unfold continueRunWith
    rw [h]
  · intro f e runId st hp hl hterm
    have hrun : continueRunWith f e = (cleanupTriggers (deletePendingRun e), Except.ok ()) := by
      unfold continueRunWith
      rw [hp]
      simp only [hl, if_pos hterm]
    rw [hrun]
    refine ⟨rfl, rfl, rfl, ?_, ?_⟩
    · simp [cleanupTriggers, deletePendingRun]
    · unfold continueRunWith
      rfl


/-- C2: the stage wrapper catches exactly the error whose message is
`TIMEOUT`: in that case it leaves the persisted run records exactly
as the stage left them, sets the pending-run marker, arms a
continuation trigger and returns without error (so the run is not
marked `FAILED`); any other error propagates unchanged out of the
stage, and the orchestrator's `continueRun` then persists
`status = FAILED` with `lastError`, clears the pending-run marker
and cancels every `continueRun` trigger. -/
theorem collectX_catches_timeout_and_continueRun_fails_otherwise :
    (∀ (deps : XStageDeps) (runId : String) (plan : Plan) (e e₁ : Env)
        (msg : String) (st : RunState),
        loadRunState e runId = some st →
        deps.xConfigured = true →
        xStageBody deps runId plan e = (e₁, Except.error msg) →
        collectXWithTimeout deps runId plan e =
          (if msg = "TIMEOUT" then (scheduleContinuation e₁ runId, Except.ok ())
           else (e₁, Except.error msg)) ∧
        (scheduleContinuation e₁ runId).runStates = e₁.runStates ∧
        (scheduleContinuation e₁ runId).pendingRunId = some runId ∧
        (scheduleContinuation e₁ runId).triggers = e₁.triggers ++ ["continueRun"]) ∧
    (∀ (f : String → RunState → Env → Env × Except String Unit) (e : Env)
        (runId : String) (st st₁ : RunState) (msg : String) (e₁ : Env),
        e.pendingRunId = some runId →
        loadRunState e runId = some st →
        ¬(st.status = RunStatus.COMPLETED ∨ st.status = RunStatus.FAILED) →
        f runId st e = (e₁, Except.error msg) →
        loadRunState e₁ runId = some st₁ →
        st₁.runId = runId →
        (continueRunWith f e).2 = Except.ok () ∧
        loadRunState (continueRunWith f e).1 runId =
          some { st₁ with status := RunStatus.FAILED, lastError := some msg } ∧
        (continueRunWith f e).1.pendingRunId = none ∧
        "continueRun" ∉ (continueRunWith f e).1.triggers) := by
  constructor
  · intro deps runId plan e e₁ msg st hl hx hbody
    refine ⟨?_, rfl, rfl, rfl⟩
    unfold collectXWithTimeout
    rw [hl]
    simp only [hx]
    rw [hbody]
    simp
  · intro f e runId st st₁ msg e₁ hp hl hterm hf hl₁ hid
    have herr : updateRunError e₁ runId msg =
        (saveRunState e₁ { st₁ with status := RunStatus.FAILED, lastError := some msg },
         Except.ok ()) := by
      unfold updateRunError
      rw [hl₁]
    have hrun : continueRunWith f e =
        (cleanupTriggers (deletePendingRun
          (saveRunState e₁ { st₁ with status := RunStatus.FAILED, lastError := some msg })),
         Except.ok ()) := by
      unfold continueRunWith
      rw [hp]
      simp only [hl, if_neg hterm, hf, herr]
    rw [hrun]
    refine ⟨rfl, ?_, rfl, ?_⟩
    · show loadRunState _ _ = _
      have : ∀ (e' : Env), loadRunState (cleanupTriggers (deletePendingRun e')) runId =
          loadRunState e' runId := by
        intro e'; rfl
      rw [this]
      have := loadRunState_saveRunState_self e₁
        { st₁ with status := RunStatus.FAILED, lastError := some msg }
      simpa [hid] using this
    · simp [cleanupTriggers]


theorem zeroCollected_ne_completed (ma xc : Bool) (s : RunSummary) :
    zeroCollectedMessage ma xc ≠ completedMessage s := by
  intro h
  have hW : (zeroCollectedMessage ma xc).data.head? = some 'W' := by
    unfold zeroCollectedMessage
    repeat rw [String.data_append]
    repeat rw [List.append_assoc]
    rw [List.head?_append]
    rfl
  have hC : (completedMessage s).data.head? = some 'C' := by
    unfold completedMessage
    repeat rw [String.data_append]
    repeat rw [List.append_assoc]
    rw [List.head?_append]
    rfl
  rw [h, hC] at hW
  simp at hW

/-- C8: a run finalized with zero collected items across all sources
completes with the `WARNING` message carrying the platform
configuration snapshot, a run with at least one item completes with
the normal summary message, and the two messages are distinct for
every possible argument — so an empty `COMPLETED` run is always
distinguishable. -/
theorem finalizeRun_zero_collected_flag (deps : FinalizeDeps) (runId : String)
    (e : Env) (st : RunState)
    (hl : loadRunState e runId = some st) (hid : st.runId = runId)
    (hsheet : deps.finalizeSheetResult = Except.ok ())
    (hman : deps.manifestResult = Except.ok ()) :
    (finalizeRun deps runId e).2 = Except.ok () ∧
    loadRunState (finalizeRun deps runId e).1 runId =
      some { st with
        status := RunStatus.COMPLETED
        lastMessage := some (
          if (runSummaryOf st).instagramCollected + (runSummaryOf st).xCollected +
              (runSummaryOf st).tiktokCollected = 0 then
            zeroCollectedMessage deps.metaAuthorized deps.xConfigured
          else
            completedMessage (runSummaryOf st)) } ∧
    (∀ (ma xc : Bool) (s : RunSummary),
      zeroCollectedMessage ma xc ≠ completedMessage s) := by
  have hupd : updateRunStatus e runId RunStatus.COMPLETED
      (some (if (runSummaryOf st).instagramCollected + (runSummaryOf st).xCollected +
          (runSummaryOf st).tiktokCollected = 0 then
        zeroCollectedMessage deps.metaAuthorized deps.xConfigured
      else completedMessage (runSummaryOf st))) =
      (saveRunState e { st with
        status := RunStatus.COMPLETED
        lastMessage := some (
          if (runSummaryOf st).instagramCollected + (runSummaryOf st).xCollected +
              (runSummaryOf st).tiktokCollected = 0 then
            zeroCollectedMessage deps.metaAuthorized deps.xConfigured
          else completedMessage (runSummaryOf st)) }, Except.ok ()) := by
    unfold updateRunStatus
    rw [hl]
  have hrun : finalizeRun deps runId e =
      (cleanupTriggers (deletePendingRun (saveRunState e { st with
        status := RunStatus.COMPLETED
        lastMessage := some (
          if (runSummaryOf st).instagramCollected + (runSummaryOf st).xCollected +
              (runSummaryOf st).tiktokCollected = 0 then
            zeroCollectedMessage deps.metaAuthorized deps.xConfigured
          else completedMessage (runSummaryOf st)) })), Except.ok ()) := by
    unfold finalizeRun
    rw [hl, hsheet, hman]
    simp only [hupd]
  rw [hrun]
  refine ⟨rfl, ?_, zeroCollected_ne_completed⟩
  have hload : ∀ (e' : Env), loadRunState (cleanupTriggers (deletePendingRun e')) runId =
      loadRunState e' runId := fun _ => rfl
  rw [hload]
  have := loadRunState_saveRunState_self e { st with
    status := RunStatus.COMPLETED
    lastMessage := some (
      if (runSummaryOf st).instagramCollected + (runSummaryOf st).xCollected +
          (runSummaryOf st).tiktokCollected = 0 then
        zeroCollectedMessage deps.metaAuthorized deps.xConfigured
      else completedMessage (runSummaryOf st)) }
  simpa [hid] using this

theorem retryGo_spec {α : Type} (f : Nat → Except String α)
    (shouldRetry : String → Nat → Bool) (jitter : Nat → Nat)
    (maxRetries base maxD : Nat) :
    ∀ (fuel attempt : Nat), attempt + fuel = maxRetries + 1 →
      attempt ≤ maxRetries →
      1 ≤ (retryGo f shouldRetry jitter maxRetries base maxD attempt fuel).calls ∧
      (retryGo f shouldRetry jitter maxRetries base maxD attempt fuel).calls ≤ fuel ∧
      (retryGo f shouldRetry jitter maxRetries base maxD attempt fuel).sleeps =
        (List.range ((retryGo f shouldRetry jitter maxRetries base maxD attempt fuel).calls - 1)).map
          (fun i => min (base * 2 ^ (attempt + i) + jitter (attempt + i)) maxD) ∧
      (∀ err, (retryGo f shouldRetry jitter maxRetries base maxD attempt fuel).result =
          Except.error err →
        f (attempt + (retryGo f shouldRetry jitter maxRetries base maxD attempt fuel).calls - 1) =
          Except.error err ∧
        (attempt + (retryGo f shouldRetry jitter maxRetries base maxD attempt fuel).calls - 1 =
            maxRetries ∨
          shouldRetry err (attempt +
            (retryGo f shouldRetry jitter maxRetries base maxD attempt fuel).calls - 1) = false)) := by
  intro fuel
  induction fuel with
  | zero => intro attempt h1 h2; omega
  | succ fuel ih =>
      intro attempt h1 h2
      unfold retryGo
      cases hf : f attempt with
      | ok a =>
          refine ⟨by simp, by simp, by simp, ?_⟩
          intro err herr
          simp at herr
      | error e =>
          by_cases hmax : maxRetries ≤ attempt
          · simp only [hmax, if_true]
            refine ⟨by simp, by simp, by simp, ?_⟩
            intro err herr
            have h' : (Except.error e : Except String α) = Except.error err := herr
            injection h' with h''
            subst h''
            have hat : attempt = maxRetries := by omega
            refine ⟨by simpa using hf, Or.inl (by omega)⟩
          · by_cases hsr : shouldRetry e attempt = true
            · simp only [hmax, if_false, hsr, not_true, if_neg (not_not_intro hsr)]
              obtain ⟨ih1, ih2, ih3, ih4⟩ := ih (attempt + 1) (by omega) (by omega)
              set t := retryGo f shouldRetry jitter maxRetries base maxD (attempt + 1) fuel
                with ht
              refine ⟨by simp, by simpa using ih2, ?_, ?_⟩
              · dsimp only
                have hc : t.calls + 1 - 1 = (t.calls - 1) + 1 := by omega
                rw [hc, List.range_succ_eq_map, List.map_cons, List.map_map, ih3]
                refine congrArg₂ List.cons (by simp) ?_
                apply List.map_congr_left
                intro a _
                simp only [Function.comp_apply]
                have hax : attempt + 1 + a = attempt + (a + 1) := by omega
                rw [hax]
              · intro err herr
                obtain ⟨g1, g2⟩ := ih4 err herr
                have hix : attempt + (t.calls + 1) - 1 = attempt + 1 + t.calls - 1 := by
                  omega
                rw [hix]
                exact ⟨g1, g2⟩
            · simp only [Bool.not_eq_true] at hsr
              simp only [hmax, if_false, hsr, if_true, Bool.false_eq_true]
              refine ⟨by simp, by simp, by simp, ?_⟩
              intro err herr
              have h' : (Except.error e : Except String α) = Except.error err := herr
              injection h' with h''
              subst h''
              refine ⟨by simpa using hf, Or.inr (by simpa using hsr)⟩

/-- C9: `withRetry` invokes the wrapped function at most
`maxRetries + 1` times; the sleep before the `(i+1)`-th invocation is
exactly `min(baseDelay * 2 ^ i + jitter, maxDelay)` with the jitter
drawn below `1000`; and when the result is an error it is the error
of the last invocation, reached either because attempts were
exhausted or because `shouldRetry` declined. -/
theorem withRetry_spec {α : Type} (f : Nat → Except String α)
    (shouldRetry : String → Nat → Bool) (jitter : Nat → Nat)
    (maxRetries base maxD : Nat) (hj : ∀ a, jitter a < 1000) :
    (withRetry f shouldRetry jitter maxRetries base maxD).calls ≤ maxRetries + 1 ∧
    (withRetry f shouldRetry jitter maxRetries base maxD).sleeps =
      (List.range ((withRetry f shouldRetry jitter maxRetries base maxD).calls - 1)).map
        (fun i => min (base * 2 ^ i + jitter i) maxD) ∧
    (∀ i, i < (withRetry f shouldRetry jitter maxRetries base maxD).sleeps.length →
      (withRetry f shouldRetry jitter maxRetries base maxD).sleeps.getD i 0 <
        base * 2 ^ i + 1000) ∧
    (∀ err, (withRetry f shouldRetry jitter maxRetries base maxD).result =
        Except.error err →
      f ((withRetry f shouldRetry jitter maxRetries base maxD).calls - 1) =
        Except.error err ∧
      ((withRetry f shouldRetry jitter maxRetries base maxD).calls = maxRetries + 1 ∨
        shouldRetry err ((withRetry f shouldRetry jitter maxRetries base maxD).calls - 1) =
          false)) := by
  obtain ⟨h1, h2, h3, h4⟩ := retryGo_spec f shouldRetry jitter maxRetries base maxD
    (maxRetries + 1) 0 (by omega) (by omega)
  set t := retryGo f shouldRetry jitter maxRetries base maxD 0 (maxRetries + 1) with ht
  have hw : withRetry f shouldRetry jitter maxRetries base maxD = t := rfl
  rw [hw]
  have hsleeps : t.sleeps = (List.range (t.calls - 1)).map
      (fun i => min (base * 2 ^ i + jitter i) maxD) := by
    rw [h3]
    apply List.map_congr_left
    intro a _
    simp
  refine ⟨h2, hsleeps, ?_, ?_⟩
  · intro i hi
    rw [hsleeps] at hi ⊢
    rw [List.length_map, List.length_range] at hi
    rw [List.getD_eq_getElem?_getD, List.getElem?_map, List.getElem?_range hi]
    simp only [Option.map_some', Option.getD_some]
    have := hj i
    have hle : min (base * 2 ^ i + jitter i) maxD ≤ base * 2 ^ i + jitter i :=
      Nat.min_le_left _ _
    omega
  · intro err herr
    obtain ⟨g1, g2⟩ := h4 err herr
    have hz : 0 + t.calls - 1 = t.calls - 1 := by omega
    rw [hz] at g1 g2
    refine ⟨g1, ?_⟩
    rcases g2 with g2 | g2
    · exact Or.inl (by omega)
    · exact Or.inr g2

theorem foldl_deleteRunState (L : List String) : ∀ (e : Env),
    L.foldl (fun acc runId => deleteRunState acc runId) e =
      { e with runStates := e.runStates.filter (fun p => ¬(p.1 ∈ L)) } := by
  induction L with
  | nil =>
      intro e
      simp [List.foldl]
  | cons b rest ih =>
      intro e
      rw [List.foldl_cons, ih]
      simp only [deleteRunState]
      congr 1
      rw [List.filter_filter]
      apply List.filter_congr
      intro p _
      by_cases hb : p.1 = b <;> by_cases hr : p.1 ∈ rest <;> simp [hb, hr]

/-- C10 (amended): the retention sweep keeps exactly the runs whose
ids are among the `keepCount` lexicographically largest (most recent,
since run ids are time-prefixed) and deletes every other run
regardless of its status — terminal or not; the pending-run marker
and the triggers are untouched, and the returned count is the number
of deleted runs. -/
theorem cleanupOldRunStates_keeps_newest (e : Env) (keepCount : Nat)
    (hnd : (listAllRunIds e).Nodup) :
    (cleanupOldRunStates e keepCount).1.runStates =
      e.runStates.filter (fun p =>
        p.1 ∈ (((listAllRunIds e).mergeSort (fun a b => a ≤ b)).reverse.take keepCount)) ∧
    (cleanupOldRunStates e keepCount).1.pendingRunId = e.pendingRunId ∧
    (cleanupOldRunStates e keepCount).1.triggers = e.triggers ∧
    (cleanupOldRunStates e keepCount).2 =
      (((listAllRunIds e).mergeSort (fun a b => a ≤ b)).reverse.drop keepCount).length := by
  have hperm : (((listAllRunIds e).mergeSort (fun a b => a ≤ b)).reverse).Perm
      (listAllRunIds e) :=
    (List.reverse_perm _).trans (List.mergeSort_perm _ _)
  have hndr : (((listAllRunIds e).mergeSort (fun a b => a ≤ b)).reverse).Nodup :=
    hperm.nodup_iff.mpr hnd
  have hsplit : ((listAllRunIds e).mergeSort (fun a b => a ≤ b)).reverse =
      (((listAllRunIds e).mergeSort (fun a b => a ≤ b)).reverse.take keepCount) ++
      (((listAllRunIds e).mergeSort (fun a b => a ≤ b)).reverse.drop keepCount) :=
    (List.take_append_drop _ _).symm
  have hcleanup : cleanupOldRunStates e keepCount =
      (((((listAllRunIds e).mergeSort (fun a b => a ≤ b)).reverse.drop keepCount)).foldl
        (fun acc runId => deleteRunState acc runId) e,
       ((((listAllRunIds e).mergeSort (fun a b => a ≤ b)).reverse.drop keepCount)).length) :=
    rfl
  rw [hcleanup, foldl_deleteRunState]
  refine ⟨?_, rfl, rfl, rfl⟩
  apply List.filter_congr
  intro p hp
  have hmem : p.1 ∈ listAllRunIds e := List.mem_map_of_mem _ hp
  have hmem' : p.1 ∈ ((listAllRunIds e).mergeSort (fun a b => a ≤ b)).reverse :=
    hperm.mem_iff.mpr hmem
  rw [hsplit] at hmem' hndr
  show decide _ = decide _
  rw [decide_eq_decide]
  by_cases ht : p.1 ∈ (((listAllRunIds e).mergeSort (fun a b => a ≤ b)).reverse.take keepCount)
  · have hnd2 : ¬ p.1 ∈ (((listAllRunIds e).mergeSort (fun a b => a ≤ b)).reverse.drop keepCount) := by
      intro hd
      exact (List.disjoint_of_nodup_append hndr) ht hd
    exact iff_of_true hnd2 ht
  · have hd : p.1 ∈ (((listAllRunIds e).mergeSort (fun a b => a ≤ b)).reverse.drop keepCount) := by
      rcases List.mem_append.mp hmem' with h | h
      · exact absurd h ht
      · exact h
    exact iff_of_false (not_not_intro hd) ht


/-- C10 counterexample: with two persisted runs and `keepCount = 1`,
the older run is deleted by the sweep even though its status
`RUNNING_X` is not terminal — the claim's frame condition on
non-terminal runs is false. -/
theorem cleanup_deletes_nonterminal_run :
    ({ createRunState "a" "collect" with status := RunStatus.RUNNING_X }.status ≠
        RunStatus.COMPLETED ∧
      { createRunState "a" "collect" with status := RunStatus.RUNNING_X }.status ≠
        RunStatus.FAILED) ∧
    loadRunState
      { runStates :=
          [("a", { createRunState "a" "collect" with status := RunStatus.RUNNING_X }),
           ("b", { createRunState "b" "collect" with status := RunStatus.COMPLETED })]
        pendingRunId := none
        triggers := [] } "a" =
      some { createRunState "a" "collect" with status := RunStatus.RUNNING_X } ∧
    loadRunState
      (cleanupOldRunStates
        { runStates :=
            [("a", { createRunState "a" "collect" with status := RunStatus.RUNNING_X }),
             ("b", { createRunState "b" "collect" with status := RunStatus.COMPLETED })]
          pendingRunId := none
          triggers := [] } 1).1 "a" = none := by
  have hms : ((["a", "b"] : List String).mergeSort (fun x y => x ≤ y)) = ["a", "b"] := by
    simp [List.mergeSort]
    rw [List.merge]
    norm_num [List.merge]
    intro h
    exact absurd h (by decide)
  refine ⟨⟨by decide, by decide⟩, rfl, ?_⟩
  have hclean : cleanupOldRunStates
      { runStates :=
          [("a", { createRunState "a" "collect" with status := RunStatus.RUNNING_X }),
           ("b", { createRunState "b" "collect" with status := RunStatus.COMPLETED })]
        pendingRunId := none
        triggers := [] } 1 =
      (deleteRunState
        { runStates :=
            [("a", { createRunState "a" "collect" with status := RunStatus.RUNNING_X }),
             ("b", { createRunState "b" "collect" with status := RunStatus.COMPLETED })]
          pendingRunId := none
          triggers := [] } "a", 1) := by
    unfold cleanupOldRunStates
    have hids : listAllRunIds
        { runStates :=
            [("a", { createRunState "a" "collect" with status := RunStatus.RUNNING_X }),
             ("b", { createRunState "b" "collect" with status := RunStatus.COMPLETED })]
          pendingRunId := none
          triggers := [] } = ["a", "b"] := rfl
    rw [hids, hms]
    rfl
  rw [hclean]
  rfl

theorem procTweets_collected_le (target : Nat) :
    ∀ (tweets : List String) (c : Nat) (pids lids buf : List String),
      c ≤ (procTweets target tweets c pids lids buf).collected := by
  intro tweets
  induction tweets with
  | nil => intro c pids lids buf; simp [procTweets]
  | cons t rest ih =>
      intro c pids lids buf
      simp only [procTweets]
      split
      · simp
      · split
        · exact ih c pids lids buf
        · exact Nat.le_trans (Nat.le_succ c) (ih (c + 1) _ _ _)

theorem procTweets_pids_extend (target : Nat) :
    ∀ (tweets : List String) (c : Nat) (pids lids buf : List String) (x : String),
      x ∈ pids → x ∈ (procTweets target tweets c pids lids buf).pids := by
  intro tweets
  induction tweets with
  | nil => intro c pids lids buf x hx; simpa [procTweets] using hx
  | cons t rest ih =>
      intro c pids lids buf x hx
      simp only [procTweets]
      split
      · simpa using hx
      · split
        · exact ih c pids lids buf x hx
        · refine ih (c + 1) _ _ _ x ?_
          unfold addProcessedPostIdX
          split
          · exact hx
          · exact List.mem_append_left _ hx

theorem procTweets_lids_sub (target : Nat) :
    ∀ (tweets : List String) (c : Nat) (pids lids buf : List String),
      (∀ x ∈ lids, x ∈ pids) →
      ∀ x ∈ (procTweets target tweets c pids lids buf).lids,
        x ∈ (procTweets target tweets c pids lids buf).pids := by
  intro tweets
  induction tweets with
  | nil => intro c pids lids buf h x hx; simpa [procTweets] using h x (by simpa using hx)
  | cons t rest ih =>
      intro c pids lids buf h
      simp only [procTweets]
      split
      · intro x hx
        exact h x hx
      · split
        · exact ih c pids lids buf h
        · refine ih (c + 1) _ _ _ ?_
          intro x hx
          rcases List.mem_append.mp hx with hx | hx
          · have := h x hx
            unfold addProcessedPostIdX
            split
            · exact this
            · exact List.mem_append_left _ this
          · simp only [List.mem_singleton] at hx
            subst hx
            unfold addProcessedPostIdX
            split
            · next hc => exact List.mem_of_elem_eq_true hc
            · exact List.mem_append_right _ (by simp)

theorem procTweets_nodup (target : Nat) :
    ∀ (tweets : List String) (c : Nat) (pids lids buf rows : List String),
      pids.Nodup → (rows ++ buf).Nodup → (∀ x ∈ rows ++ buf, x ∈ pids) →
      (procTweets target tweets c pids lids buf).pids.Nodup ∧
      (rows ++ (procTweets target tweets c pids lids buf).buf).Nodup ∧
      (∀ x ∈ rows ++ (procTweets target tweets c pids lids buf).buf,
        x ∈ (procTweets target tweets c pids lids buf).pids) := by
  intro tweets
  induction tweets with
  | nil =>
      intro c pids lids buf rows h1 h2 h3
      simp only [procTweets]
      exact ⟨h1, h2, h3⟩
  | cons t rest ih =>
      intro c pids lids buf rows h1 h2 h3
      simp only [procTweets]
      split
      · exact ⟨h1, h2, h3⟩
      · split
        · exact ih c pids lids buf rows h1 h2 h3
        · next hskip =>
            have hnp : ¬ t ∈ pids := by
              intro hm
              refine hskip (Bool.or_eq_true_iff.mpr (Or.inr ?_))
              exact List.elem_eq_true_of_mem hm
            have hpid : addProcessedPostIdX pids t = pids ++ [t] := by
              unfold addProcessedPostIdX
              rw [if_neg]
              intro hc
              exact hnp (List.mem_of_elem_eq_true hc)
            refine ih (c + 1) _ _ _ rows ?_ ?_ ?_
            · rw [hpid]
              refine List.Nodup.append h1 (by simp) ?_
              intro x hx hy
              simp only [List.mem_singleton] at hy
              subst hy
              exact hnp hx
            · rw [← List.append_assoc]
              refine List.Nodup.append h2 (by simp) ?_
              intro x hx hy
              simp only [List.mem_singleton] at hy
              subst hy
              exact hnp (h3 x hx)
            · intro x hx
              rw [hpid]
              rw [← List.append_assoc] at hx
              rcases List.mem_append.mp hx with hx | hx
              · exact List.mem_append_left _ (h3 x hx)
              · exact List.mem_append_right _ hx

theorem procTweets_lids_irrel (target : Nat) :
    ∀ (tweets : List String) (c : Nat) (pids l₁ l₂ buf : List String),
      (∀ x ∈ l₁, x ∈ pids) → (∀ x ∈ l₂, x ∈ pids) →
      (procTweets target tweets c pids l₁ buf).collected =
        (procTweets target tweets c pids l₂ buf).collected ∧
      (procTweets target tweets c pids l₁ buf).pids =
        (procTweets target tweets c pids l₂ buf).pids ∧
      (procTweets target tweets c pids l₁ buf).buf =
        (procTweets target tweets c pids l₂ buf).buf := by
  intro tweets
  induction tweets with
  | nil => intro c pids l₁ l₂ buf h1 h2; simp [procTweets]
  | cons t rest ih =>
      intro c pids l₁ l₂ buf h1 h2
      simp only [procTweets]
      split
      · simp
      · have hcond : ∀ (l : List String), (∀ x ∈ l, x ∈ pids) →
            (l.contains t || pids.contains t) = pids.contains t := by
          intro l hl
          cases hp : pids.contains t
          · cases hlt : l.contains t
            · simp
            · exfalso
              have hm : t ∈ pids := hl t (List.mem_of_elem_eq_true hlt)
              simp at hp
              exact hp hm
          · simp
        rw [hcond l₁ h1, hcond l₂ h2]
        cases hp : pids.contains t with
        | true =>
            simp only [if_true]
            exact ih c pids l₁ l₂ buf h1 h2
        | false =>
            simp only [Bool.false_eq_true, if_false]
            have hnp : ¬ t ∈ pids := by
              simp at hp
              exact hp
            refine ih (c + 1) (addProcessedPostIdX pids t) (l₁ ++ [t])
              (l₂ ++ [t]) (buf ++ [t]) ?_ ?_
            · intro x hx
              rcases List.mem_append.mp hx with hx | hx
              · unfold addProcessedPostIdX
                split
                · exact h1 x hx
                · exact List.mem_append_left _ (h1 x hx)
              · simp only [List.mem_singleton] at hx
                subst hx
                unfold addProcessedPostIdX
                split
                · next hc => exact List.mem_of_elem_eq_true hc
                · exact List.mem_append_right _ (by simp)
            · intro x hx
              rcases List.mem_append.mp hx with hx | hx
              · unfold addProcessedPostIdX
                split
                · exact h2 x hx
                · exact List.mem_append_left _ (h2 x hx)
              · simp only [List.mem_singleton] at hx
                subst hx
                unfold addProcessedPostIdX
                split
                · next hc => exact List.mem_of_elem_eq_true hc
                · exact List.mem_append_right _ (by simp)

theorem xFinish_collected_mono (c : Nat) (cur : Option Nat)
    (pids rows buf : List String) (pc : Nat) (pcur : Option Nat) (h : pc ≤ c) :
    pc ≤ (xFinish c cur pids rows buf pc pcur).1.collected := by
  unfold xFinish
  split <;> simp [h]

theorem xLoop_collected_mono (pages : List (List String)) (bs target : Nat) :
    ∀ (fuel : Nat) (budget : Option Nat) (c : Nat) (cur : Option Nat)
      (pids rows buf lids : List String) (pc : Nat) (pcur : Option Nat),
      pc ≤ c →
      pc ≤ (xLoop pages bs target fuel budget c cur pids rows buf lids pc pcur).1.collected := by
  intro fuel
  induction fuel with
  | zero =>
      intro budget c cur pids rows buf lids pc pcur h
      exact xFinish_collected_mono c cur pids rows buf pc pcur h
  | succ fuel ih =>
      intro budget c cur pids rows buf lids pc pcur h
      simp only [xLoop]
      split
      · exact xFinish_collected_mono c cur pids rows buf pc pcur h
      · split
        · exact xFinish_collected_mono c cur pids rows buf pc pcur h
        · have hcr : c ≤ (procTweets target (pages.getD (cursorIdx cur) [])
              c pids lids buf).collected :=
            procTweets_collected_le target _ c pids lids buf
          split
          · split
            · split
              · exact ih _ _ _ _ _ _ _ _ _ (Nat.le_trans h hcr)
              · simp only [xFinish]
                simp [h]
            · split
              · exact Nat.le_trans h hcr
              · split
                · exact Nat.le_trans (Nat.le_trans h hcr) (ih _ _ _ _ _ _ _ _ _ (Nat.le_refl _))
                · exact Nat.le_trans h hcr
          · exact ih _ _ _ _ _ _ _ _ _ (Nat.le_trans h hcr)

theorem collectXViaTweetsSearch_collected_mono (pages : List (List String))
    (bs target : Nat) (budget : Option Nat) (s : XSt) :
    s.collected ≤ (collectXViaTweetsSearch pages bs target budget s).1.collected := by
  unfold collectXViaTweetsSearch
  exact xLoop_collected_mono pages bs target 20 budget s.collected s.cursor
    s.processedIds s.rows [] [] s.collected s.cursor (Nat.le_refl _)

/-- C5: the persisted `collected` counter of the X stage is monotonically
non-decreasing across any sequence of collection invocations, whatever
their page streams, batch sizes, targets and time budgets — including
invocations that end in the budget-exhausted `TIMEOUT` signal. -/
theorem collected_monotone_across_invocations :
    ∀ (specs : List InvSpec) (s : XSt),
      s.collected ≤ (runInvocations specs s).collected := by
  intro specs
  induction specs with
  | nil => intro s; exact Nat.le_refl _
  | cons i rest ih =>
      intro s
      exact Nat.le_trans
        (collectXViaTweetsSearch_collected_mono i.pages i.bs i.target i.budget s)
        (ih _)

theorem xFinish_nodup (c : Nat) (cur : Option Nat) (pids rows buf : List String)
    (pc : Nat) (pcur : Option Nat)
    (h1 : pids.Nodup) (h2 : (rows ++ buf).Nodup) (h3 : ∀ x ∈ rows ++ buf, x ∈ pids) :
    (xFinish c cur pids rows buf pc pcur).1.processedIds.Nodup ∧
    (xFinish c cur pids rows buf pc pcur).1.rows.Nodup ∧
    (∀ x ∈ (xFinish c cur pids rows buf pc pcur).1.rows,
      x ∈ (xFinish c cur pids rows buf pc pcur).1.processedIds) := by
  unfold xFinish
  split
  · next hemp =>
      have hb : buf = [] := by simpa using hemp
      subst hb
      simp only [List.append_nil] at h2 h3
      exact ⟨h1, h2, h3⟩
  · exact ⟨h1, h2, h3⟩

theorem xLoop_nodup (pages : List (List String)) (bs target : Nat) :
    ∀ (fuel : Nat) (budget : Option Nat) (c : Nat) (cur : Option Nat)
      (pids rows buf lids : List String) (pc : Nat) (pcur : Option Nat),
      pids.Nodup → (rows ++ buf).Nodup → (∀ x ∈ rows ++ buf, x ∈ pids) →
      (∀ x ∈ lids, x ∈ pids) →
      (xLoop pages bs target fuel budget c cur pids rows buf lids pc pcur).1.processedIds.Nodup ∧
      (xLoop pages bs target fuel budget c cur pids rows buf lids pc pcur).1.rows.Nodup ∧
      (∀ x ∈ (xLoop pages bs target fuel budget c cur pids rows buf lids pc pcur).1.rows,
        x ∈ (xLoop pages bs target fuel budget c cur pids rows buf lids pc pcur).1.processedIds) := by
  intro fuel
  induction fuel with
  | zero =>
      intro budget c cur pids rows buf lids pc pcur h1 h2 h3 h4
      exact xFinish_nodup c cur pids rows buf pc pcur h1 h2 h3
  | succ fuel ih =>
      intro budget c cur pids rows buf lids pc pcur h1 h2 h3 h4
      simp only [xLoop]
      split
      · exact xFinish_nodup c cur pids rows buf pc pcur h1 h2 h3
      · split
        · exact xFinish_nodup c cur pids rows buf pc pcur h1 h2 h3
        · obtain ⟨g1, g2, g3⟩ := procTweets_nodup target (pages.getD (cursorIdx cur) [])
            c pids lids buf rows h1 h2 h3
          have g4 := procTweets_lids_sub target (pages.getD (cursorIdx cur) [])
            c pids lids buf h4
          split
          · split
            · next hemp =>
                have hb : (procTweets target (pages.getD (cursorIdx cur) [])
                    c pids lids buf).buf = [] := by simpa using hemp
                rw [hb] at g2 g3
                simp only [List.append_nil] at g2 g3
                split
                · exact ih _ _ _ _ _ _ _ _ _ g1 (by simpa using g2) (by simpa using g3) g4
                · exact ⟨g1, g2, g3⟩
            · split
              · exact ⟨g1, g2, g3⟩
              · split
                · exact ih _ _ _ _ _ _ _ _ _ g1 (by simpa using g2) (by simpa using g3) g4
                · exact ⟨g1, g2, g3⟩
          · exact ih _ _ _ _ _ _ _ _ _ g1 g2 g3 g4

theorem addProcessedPostIdX_nodup (pids : List String) (postId : String)
    (h : pids.Nodup) : (addProcessedPostIdX pids postId).Nodup := by
  unfold addProcessedPostIdX
  split
  · exact h
  · next hc =>
      refine List.Nodup.append h (by simp) ?_
      intro x hx hy
      simp only [List.mem_singleton] at hy
      subst hy
      exact hc (List.elem_eq_true_of_mem hx)

theorem collectXViaTweetsSearch_nodup (pages : List (List String))
    (bs target : Nat) (budget : Option Nat) (s : XSt)
    (h1 : s.processedIds.Nodup) (h2 : s.rows.Nodup)
    (h3 : ∀ x ∈ s.rows, x ∈ s.processedIds) :
    (collectXViaTweetsSearch pages bs target budget s).1.processedIds.Nodup ∧
    (collectXViaTweetsSearch pages bs target budget s).1.rows.Nodup ∧
    (∀ x ∈ (collectXViaTweetsSearch pages bs target budget s).1.rows,
      x ∈ (collectXViaTweetsSearch pages bs target budget s).1.processedIds) := by
  unfold collectXViaTweetsSearch
  exact xLoop_nodup pages bs target 20 budget s.collected s.cursor s.processedIds
    s.rows [] [] s.collected s.cursor h1 (by simpa using h2) (by simpa using h3)
    (by simp)

/-- C4: starting from a checkpoint satisfying the dedup invariant
(in particular the fresh run state with empty ledger and empty
sheet), no id ever appears twice in the persisted `processedIds`
ledger and the spreadsheet never receives two X rows with the same
id, across any sequence of collection invocations; and
`addProcessedPostId` itself always preserves a duplicate-free
ledger. -/
theorem dedup_invariant_across_invocations :
    (∀ (specs : List InvSpec) (s : XSt),
      s.processedIds.Nodup → s.rows.Nodup → (∀ x ∈ s.rows, x ∈ s.processedIds) →
      (runInvocations specs s).processedIds.Nodup ∧
      (runInvocations specs s).rows.Nodup) ∧
    (∀ (pids : List String) (postId : String),
      pids.Nodup → (addProcessedPostIdX pids postId).Nodup) := by
  constructor
  · intro specs
    induction specs with
    | nil => intro s h1 h2 h3; exact ⟨h1, h2⟩
    | cons i rest ih =>
        intro s h1 h2 h3
        obtain ⟨g1, g2, g3⟩ := collectXViaTweetsSearch_nodup i.pages i.bs i.target
          i.budget s h1 h2 h3
        exact ih _ g1 g2 g3
  · exact addProcessedPostIdX_nodup

theorem xFinish_snd (c : Nat) (cur : Option Nat) (pids rows buf : List String)
    (pc : Nat) (pcur : Option Nat) : (xFinish c cur pids rows buf pc pcur).2 = true := by
  unfold xFinish
  split <;> rfl

theorem xLoop_none_finishes (pages : List (List String)) (bs target : Nat) :
    ∀ (fuel : Nat) (c : Nat) (cur : Option Nat)
      (pids rows buf lids : List String) (pc : Nat) (pcur : Option Nat),
      (xLoop pages bs target fuel none c cur pids rows buf lids pc pcur).2 = true := by
  intro fuel
  induction fuel with
  | zero =>
      intro c cur pids rows buf lids pc pcur
      exact xFinish_snd c cur pids rows buf pc pcur
  | succ fuel ih =>
      intro c cur pids rows buf lids pc pcur
      simp only [xLoop]
      split
      · exact xFinish_snd c cur pids rows buf pc pcur
      · split
        · exact xFinish_snd c cur pids rows buf pc pcur
        · split
          · split
            · split
              · exact ih _ _ _ _ _ _ _ _
              · rfl
            · split
              · next hz => exact absurd hz (by simp)
              · split
                · exact ih _ _ _ _ _ _ _ _
                · rfl
          · exact ih _ _ _ _ _ _ _ _

theorem xLoop_stream_end (pages : List (List String)) (bs target : Nat)
    (fuel : Nat) (budget : Option Nat) (c : Nat) (cur : Option Nat)
    (pids rows buf lids : List String) (pc : Nat) (pcur : Option Nat)
    (h : pages.length ≤ cursorIdx cur) :
    xLoop pages bs target fuel budget c cur pids rows buf lids pc pcur =
      xFinish c cur pids rows buf pc pcur := by
  cases fuel with
  | zero => rfl
  | succ fuel =>
      simp only [xLoop]
      split
      · rfl
      · rw [List.getD_eq_default _ _ h]
        simp

theorem cursorIdx_some (i : Nat) : cursorIdx (some i) = i := rfl

theorem xLoop_fuel_irrel (pages : List (List String)) (bs target : Nat) :
    ∀ (f₁ f₂ : Nat) (c : Nat) (cur : Option Nat)
      (pids rows buf lids : List String) (pc : Nat) (pcur : Option Nat),
      pages.length ≤ cursorIdx cur + f₁ → pages.length ≤ cursorIdx cur + f₂ →
      xLoop pages bs target f₁ none c cur pids rows buf lids pc pcur =
      xLoop pages bs target f₂ none c cur pids rows buf lids pc pcur := by
  intro f₁
  induction f₁ with
  | zero =>
      intro f₂ c cur pids rows buf lids pc pcur h1 h2
      rw [xLoop_stream_end pages bs target f₂ none c cur pids rows buf lids pc pcur
        (by omega)]
      rfl
  | succ f₁ ih =>
      intro f₂ c cur pids rows buf lids pc pcur h1 h2
      cases f₂ with
      | zero =>
          rw [xLoop_stream_end pages bs target (f₁ + 1) none c cur pids rows buf lids
            pc pcur (by omega)]
          rfl
      | succ f₂ =>
          simp only [xLoop]
          split
          · rfl
          · split
            · rfl
            · split
              · split
                · split
                  · exact ih f₂ _ _ _ _ _ _ _ _ (by rw [cursorIdx_some]; omega)
                      (by rw [cursorIdx_some]; omega)
                  · rfl
                · split
                  · rfl
                  · split
                    · exact ih f₂ _ _ _ _ _ _ _ _ (by rw [cursorIdx_some]; omega)
                        (by rw [cursorIdx_some]; omega)
                    · rfl
              · exact ih f₂ _ _ _ _ _ _ _ _ (by rw [cursorIdx_some]; omega)
                  (by rw [cursorIdx_some]; omega)

theorem xLoop_lids_irrel (pages : List (List String)) (bs target : Nat) :
    ∀ (fuel : Nat) (budget : Option Nat) (c : Nat) (cur : Option Nat)
      (pids rows buf l₁ l₂ : List String) (pc : Nat) (pcur : Option Nat),
      (∀ x ∈ l₁, x ∈ pids) → (∀ x ∈ l₂, x ∈ pids) →
      xLoop pages bs target fuel budget c cur pids rows buf l₁ pc pcur =
      xLoop pages bs target fuel budget c cur pids rows buf l₂ pc pcur := by
  intro fuel
  induction fuel with
  | zero => intro budget c cur pids rows buf l₁ l₂ pc pcur h1 h2; rfl
  | succ fuel ih =>
      intro budget c cur pids rows buf l₁ l₂ pc pcur h1 h2
      simp only [xLoop]
      split
      · rfl
      · split
        · rfl
        · obtain ⟨hc, hp, hb⟩ := procTweets_lids_irrel target
            (pages.getD (cursorIdx cur) []) c pids l₁ l₂ buf h1 h2
          have s₁ := procTweets_lids_sub target (pages.getD (cursorIdx cur) [])
            c pids l₁ buf h1
          have s₂ := procTweets_lids_sub target (pages.getD (cursorIdx cur) [])
            c pids l₂ buf h2
          rw [hp] at s₁
          rw [hc, hp, hb]
          split
          · split
            · split
              · exact ih _ _ _ _ _ _ _ _ _ _ s₁ s₂
              · rfl
            · split
              · rfl
              · split
                · exact ih _ _ _ _ _ _ _ _ _ _ s₁ s₂
                · rfl
          · exact ih _ _ _ _ _ _ _ _ _ _ s₁ s₂


theorem tickBudget_none : tickBudget none = none := rfl

theorem xLoop_budget_sim (pages : List (List String)) (bs target : Nat)
    (hlen : pages.length ≤ 20) :
    ∀ (fuel b : Nat) (c : Nat) (cur : Option Nat)
      (pids rows buf lids : List String) (pc : Nat) (pcur : Option Nat),
      (∀ x ∈ lids, x ∈ pids) →
      pages.length ≤ cursorIdx cur + fuel →
      ((xLoop pages bs target fuel (some b) c cur pids rows buf lids pc pcur).2 = true →
        xLoop pages bs target fuel (some b) c cur pids rows buf lids pc pcur =
        xLoop pages bs target fuel none c cur pids rows buf lids pc pcur) ∧
      ((xLoop pages bs target fuel (some b) c cur pids rows buf lids pc pcur).2 = false →
        collectXViaTweetsSearch pages bs target none
          (xLoop pages bs target fuel (some b) c cur pids rows buf lids pc pcur).1 =
        xLoop pages bs target fuel none c cur pids rows buf lids pc pcur) := by
  intro fuel
  induction fuel with
  | zero =>
      intro b c cur pids rows buf lids pc pcur hsub hbound
      constructor
      · intro _; rfl
      · intro hto
        simp only [xLoop] at hto
        rw [xFinish_snd] at hto
        exact absurd hto (by simp)
  | succ fuel ih =>
      intro b c cur pids rows buf lids pc pcur hsub hbound
      simp only [xLoop]
      split
      · constructor
        · intro _; rfl
        · intro hto
          rw [xFinish_snd] at hto
          exact absurd hto (by simp)
      · split
        · constructor
          · intro _; rfl
          · intro hto
            rw [xFinish_snd] at hto
            exact absurd hto (by simp)
        · have hlsub := procTweets_lids_sub target (pages.getD (cursorIdx cur) [])
            c pids lids buf hsub
          have hbound' : pages.length ≤ cursorIdx (some (cursorIdx cur + 1)) + fuel := by
            rw [cursorIdx_some]; omega
          split
          · split
            · split
              · exact ih b _ _ _ _ _ _ _ _ hlsub hbound'
              · constructor
                · intro _; rfl
                · intro hto
                  exact absurd hto (by simp)
            · rw [if_neg (show ¬((none : Option Nat) = some 0) by simp)]
              split
              · constructor
                · intro hfin
                  exact absurd hfin (by simp)
                · intro _
                  rw [tickBudget_none]
                  split
                  · next hmore =>
                      unfold collectXViaTweetsSearch
                      dsimp only
                      rw [xLoop_lids_irrel pages bs target 20 none _ _ _ _ _
                        ([] : List String)
                        (procTweets target (pages.getD (cursorIdx cur) [])
                          c pids lids buf).lids _ _ (by simp) hlsub]
                      exact xLoop_fuel_irrel pages bs target 20 fuel _ _ _ _ _ _ _ _
                        (by rw [cursorIdx_some]; omega) hbound'
                  · next hmore =>
                      have hend : pages.length ≤ cursorIdx (some (cursorIdx cur + 1)) := by
                        rw [cursorIdx_some]
                        simp only [decide_eq_true_eq] at hmore
                        omega
                      unfold collectXViaTweetsSearch
                      dsimp only
                      rw [xLoop_stream_end pages bs target 20 none _ _ _ _ _ _ _ _ hend]
                      rfl
              · next hz =>
                  have hb : tickBudget (some b) = some (b - 1) := by
                    cases b with
                    | zero => exact absurd rfl hz
                    | succ n => rfl
                  rw [hb, tickBudget_none]
                  obtain ⟨g1, g2⟩ := ih (b - 1)
                    (procTweets target (pages.getD (cursorIdx cur) []) c pids lids buf).collected
                    (some (cursorIdx cur + 1))
                    (procTweets target (pages.getD (cursorIdx cur) []) c pids lids buf).pids
                    (rows ++ (procTweets target (pages.getD (cursorIdx cur) []) c pids lids buf).buf)
                    []
                    (procTweets target (pages.getD (cursorIdx cur) []) c pids lids buf).lids
                    (procTweets target (pages.getD (cursorIdx cur) []) c pids lids buf).collected
                    (some (cursorIdx cur + 1))
                    hlsub hbound'
                  split
                  · exact ⟨fun hfin => g1 hfin, fun hto => g2 hto⟩
                  · constructor
                    · intro _; rfl
                    · intro hto
                      exact absurd hto (by simp)
          · exact ih b _ _ _ _ _ _ _ _ hlsub hbound'

theorem collectXViaTweetsSearch_none_finishes (pages : List (List String))
    (bs target : Nat) (s : XSt) :
    (collectXViaTweetsSearch pages bs target none s).2 = true :=
  xLoop_none_finishes pages bs target 20 s.collected s.cursor s.processedIds
    s.rows [] [] s.collected s.cursor

theorem collectXViaTweetsSearch_budget_sim (pages : List (List String))
    (bs target : Nat) (hlen : pages.length ≤ 20) (b : Nat) (s : XSt) :
    ((collectXViaTweetsSearch pages bs target (some b) s).2 = true →
      collectXViaTweetsSearch pages bs target (some b) s =
      collectXViaTweetsSearch pages bs target none s) ∧
    ((collectXViaTweetsSearch pages bs target (some b) s).2 = false →
      collectXViaTweetsSearch pages bs target none
        (collectXViaTweetsSearch pages bs target (some b) s).1 =
      collectXViaTweetsSearch pages bs target none s) := by
  have := xLoop_budget_sim pages bs target hlen 20 b s.collected s.cursor
    s.processedIds s.rows [] [] s.collected s.cursor (by simp) (by omega)
  exact this

/-- C1 (amended): provided the page stream fits within the
`maxAttempts = 20` page cap of a single invocation, a run split
across budget-limited continuation invocations that reaches
completion ends in exactly the persisted state (collected count,
cursor, ledger, and sheet rows) the single unbounded invocation
produces — and the unbounded invocation always completes. -/
theorem checkpoint_resume_equivalence (pages : List (List String)) (bs target : Nat)
    (hlen : pages.length ≤ 20) :
    ∀ (sched : List (Option Nat)) (s sF : XSt),
      runContinuations pages bs target sched s = (sF, true) →
      (collectXViaTweetsSearch pages bs target none s).1 = sF ∧
      (collectXViaTweetsSearch pages bs target none s).2 = true := by
  intro sched
  induction sched with
  | nil =>
      intro s sF h
      simp only [runContinuations] at h
      have : (false : Bool) = true := congrArg Prod.snd h
      exact absurd this (by simp)
  | cons bopt rest ih =>
      intro s sF h
      simp only [runContinuations] at h
      split at h
      · next hfin =>
          have hsF : (collectXViaTweetsSearch pages bs target bopt s).1 = sF :=
            congrArg Prod.fst h
          cases bopt with
          | none =>
              exact ⟨hsF, collectXViaTweetsSearch_none_finishes pages bs target s⟩
          | some k =>
              have heq := (collectXViaTweetsSearch_budget_sim pages bs target hlen k s).1 hfin
              refine ⟨?_, collectXViaTweetsSearch_none_finishes pages bs target s⟩
              rw [← heq]
              exact hsF
      · next hnf =>
          cases bopt with
          | none =>
              exact absurd (collectXViaTweetsSearch_none_finishes pages bs target s) hnf
          | some k =>
              have hto : (collectXViaTweetsSearch pages bs target (some k) s).2 = false := by
                cases hb : (collectXViaTweetsSearch pages bs target (some k) s).2
                · rfl
                · exact absurd hb hnf
              obtain ⟨g1, g2⟩ := ih _ _ h
              have heq := (collectXViaTweetsSearch_budget_sim pages bs target hlen k s).2 hto
              rw [heq] at g1
              exact ⟨g1, collectXViaTweetsSearch_none_finishes pages bs target s⟩

/-- C1 counterexample: on a stream of 21 single-tweet pages with
target 21 and batch size 1, the single unbounded invocation stops at
the `maxAttempts = 20` page cap with 20 items, while the split run
(budget-exhausted after 10 callbacks, then resumed) completes with
all 21 — the attempts counter resets on every invocation, so the two
executions do not produce the same final `{collected, items}`. -/
theorem checkpoint_resume_inequivalence :
    (collectXViaTweetsSearch ((List.range 21).map (fun i => [toString i])) 1 21 none
      { collected := 0, cursor := none, processedIds := [], rows := [] }).2 = true ∧
    (runContinuations ((List.range 21).map (fun i => [toString i])) 1 21 [some 10, none]
      { collected := 0, cursor := none, processedIds := [], rows := [] }).2 = true ∧
    (collectXViaTweetsSearch ((List.range 21).map (fun i => [toString i])) 1 21 none
      { collected := 0, cursor := none, processedIds := [], rows := [] }).1.collected = 20 ∧
    (runContinuations ((List.range 21).map (fun i => [toString i])) 1 21 [some 10, none]
      { collected := 0, cursor := none, processedIds := [], rows := [] }).1.collected = 21 :=
  ⟨rfl, rfl, rfl, rfl⟩

theorem checkpoint_resume_equivalence_witness :
    ([["a"], ["b"]] : List (List String)).length ≤ 20 ∧
    (collectXViaTweetsSearch [["a"], ["b"]] 1 2 none
        { collected := 0, cursor := none, processedIds := [], rows := [] }).1 =
      (runContinuations [["a"], ["b"]] 1 2 [some 1, some 5]
        { collected := 0, cursor := none, processedIds := [], rows := [] }).1 :=
  ⟨by decide,
    (checkpoint_resume_equivalence [["a"], ["b"]] 1 2 (by decide) [some 1, some 5]
      { collected := 0, cursor := none, processedIds := [], rows := [] }
      (runContinuations [["a"], ["b"]] 1 2 [some 1, some 5]
        { collected := 0, cursor := none, processedIds := [], rows := [] }).1 rfl).1⟩

theorem collectX_catches_timeout_witness :
    (collectXWithTimeout
      { xConfigured := true, mockMode := false,
        collect := fun e => (e, Except.error "TIMEOUT"),
        expandPlan := fun _ p => p, timeLeftForExpansion := false,
        collectExpanded := fun _ e => (e, Except.ok { collected := 0, skipped := 0 }) }
      "r1" { igTarget := 0, xTarget := 0, ttTarget := 0 }
      { runStates := [("r1", createRunState "r1" "go")], pendingRunId := none,
        triggers := [] } =
      (scheduleContinuation
        { runStates := [("r1", createRunState "r1" "go")], pendingRunId := none,
          triggers := [] } "r1", Except.ok ())) ∧
    ((continueRunWith (fun _ _ e => (e, Except.error "boom"))
      { runStates := [("r1", createRunState "r1" "go")], pendingRunId := some "r1",
        triggers := ["continueRun"] }).1.pendingRunId = none ∧
     loadRunState (continueRunWith (fun _ _ e => (e, Except.error "boom"))
      { runStates := [("r1", createRunState "r1" "go")], pendingRunId := some "r1",
        triggers := ["continueRun"] }).1 "r1" =
      some { createRunState "r1" "go" with
               status := RunStatus.FAILED
               lastError := some "boom" }) := by
  constructor
  · have h := (collectX_catches_timeout_and_continueRun_fails_otherwise).1
      { xConfigured := true, mockMode := false,
        collect := fun e => (e, Except.error "TIMEOUT"),
        expandPlan := fun _ p => p, timeLeftForExpansion := false,
        collectExpanded := fun _ e => (e, Except.ok { collected := 0, skipped := 0 }) }
      "r1" { igTarget := 0, xTarget := 0, ttTarget := 0 }
      { runStates := [("r1", createRunState "r1" "go")], pendingRunId := none,
        triggers := [] }
      { runStates := [("r1", createRunState "r1" "go")], pendingRunId := none,
        triggers := [] }
      "TIMEOUT" (createRunState "r1" "go") rfl rfl rfl
    simpa using h.1
  · have h := (collectX_catches_timeout_and_continueRun_fails_otherwise).2
      (fun _ _ e => (e, Except.error "boom"))
      { runStates := [("r1", createRunState "r1" "go")], pendingRunId := some "r1",
        triggers := ["continueRun"] }
      "r1" (createRunState "r1" "go") (createRunState "r1" "go") "boom"
      { runStates := [("r1", createRunState "r1" "go")], pendingRunId := some "r1",
        triggers := ["continueRun"] }
      rfl rfl (by decide) rfl rfl rfl
    exact ⟨h.2.2.1, h.2.1⟩

theorem dedup_invariant_witness :
    (runInvocations
      [{ pages := [["a"], ["a", "b"]], bs := 1, target := 2, budget := some 0 },
       { pages := [["a"], ["a", "b"]], bs := 1, target := 2, budget := none }]
      { collected := 0, cursor := none, processedIds := [], rows := [] }).processedIds.Nodup ∧
    (runInvocations
      [{ pages := [["a"], ["a", "b"]], bs := 1, target := 2, budget := some 0 },
       { pages := [["a"], ["a", "b"]], bs := 1, target := 2, budget := none }]
      { collected := 0, cursor := none, processedIds := [], rows := [] }).rows.Nodup :=
  (dedup_invariant_across_invocations).1
    [{ pages := [["a"], ["a", "b"]], bs := 1, target := 2, budget := some 0 },
     { pages := [["a"], ["a", "b"]], bs := 1, target := 2, budget := none }]
    { collected := 0, cursor := none, processedIds := [], rows := [] }
    (by decide) (by decide) (by decide)

theorem startRun_failfast_witness :
    startRun
      { mockMode := false, configValid := true, missingKeys := [],
        metaAuthorized := false, xConfigured := false, newRunId := "r1",
        parsePlan := fun _ => Except.error "planner unreachable",
        createFolders := Except.error "drive unreachable",
        createSpreadsheet := Except.ok () }
      "collect things" none
      { runStates := [], pendingRunId := none, triggers := [] } =
      ({ runStates := [], pendingRunId := none, triggers := [] },
       Except.error noPlatformsMessage) := by
  have h := startRun_failfast
    { mockMode := false, configValid := true, missingKeys := [],
      metaAuthorized := false, xConfigured := false, newRunId := "r1",
      parsePlan := fun _ => Except.error "planner unreachable",
      createFolders := Except.error "drive unreachable",
      createSpreadsheet := Except.ok () }
    "collect things" none
    { runStates := [], pendingRunId := none, triggers := [] } rfl rfl rfl
  simpa using h

theorem continueRun_noop_witness :
    (continueRunWith (fun _ _ e => (e, Except.error "boom"))
      { runStates := [], pendingRunId := none, triggers := [] } =
      ({ runStates := [], pendingRunId := none, triggers := [] }, Except.ok ())) ∧
    ((continueRunWith (fun _ _ e => (e, Except.error "boom"))
        { runStates := [("r1", { createRunState "r1" "go" with
            status := RunStatus.COMPLETED })], pendingRunId := some "r1",
          triggers := ["continueRun"] }).1.runStates =
      [("r1", { createRunState "r1" "go" with status := RunStatus.COMPLETED })] ∧
      continueRunWith (fun _ _ e => (e, Except.error "boom"))
        (continueRunWith (fun _ _ e => (e, Except.error "boom"))
          { runStates := [("r1", { createRunState "r1" "go" with
              status := RunStatus.COMPLETED })], pendingRunId := some "r1",
            triggers := ["continueRun"] }).1 =
        ((continueRunWith (fun _ _ e => (e, Except.error "boom"))
          { runStates := [("r1", { createRunState "r1" "go" with
              status := RunStatus.COMPLETED })], pendingRunId := some "r1",
            triggers := ["continueRun"] }).1, Except.ok ())) := by
  constructor
  · exact (continueRun_noop_and_terminal).1 (fun _ _ e => (e, Except.error "boom"))
      { runStates := [], pendingRunId := none, triggers := [] } rfl
  · have h := (continueRun_noop_and_terminal).2 (fun _ _ e => (e, Except.error "boom"))
      { runStates := [("r1", { createRunState "r1" "go" with
          status := RunStatus.COMPLETED })], pendingRunId := some "r1",
        triggers := ["continueRun"] }
      "r1" { createRunState "r1" "go" with status := RunStatus.COMPLETED }
      rfl rfl (Or.inl rfl)
    exact ⟨h.2.1, h.2.2.2.2⟩

theorem finalizeRun_zero_collected_witness :
    (finalizeRun
      { finalizeSheetResult := Except.ok (), manifestResult := Except.ok (),
        metaAuthorized := false, xConfigured := false }
      "r1"
      { runStates := [("r1", createRunState "r1" "go")], pendingRunId := some "r1",
        triggers := ["continueRun"] }).2 = Except.ok () ∧
    loadRunState
      (finalizeRun
        { finalizeSheetResult := Except.ok (), manifestResult := Except.ok (),
          metaAuthorized := false, xConfigured := false }
        "r1"
        { runStates := [("r1", createRunState "r1" "go")], pendingRunId := some "r1",
          triggers := ["continueRun"] }).1 "r1" =
      some { createRunState "r1" "go" with
               status := RunStatus.COMPLETED
               lastMessage := some (zeroCollectedMessage false false) } := by
  have h := finalizeRun_zero_collected_flag
    { finalizeSheetResult := Except.ok (), manifestResult := Except.ok (),
      metaAuthorized := false, xConfigured := false }
    "r1"
    { runStates := [("r1", createRunState "r1" "go")], pendingRunId := some "r1",
      triggers := ["continueRun"] }
    (createRunState "r1" "go") rfl rfl rfl rfl
  refine ⟨h.1, ?_⟩
  have h2 := h.2.1
  simpa using h2

theorem withRetry_witness :
    (withRetry (fun _ => (Except.error "timeout" : Except String Nat))
      (fun _ _ => true) (fun _ => 7) 2 1000 30000).calls ≤ 2 + 1 ∧
    (withRetry (fun _ => (Except.error "timeout" : Except String Nat))
      (fun _ _ => true) (fun _ => 7) 2 1000 30000).sleeps = [1007, 2007] :=
  ⟨(withRetry_spec (fun _ => (Except.error "timeout" : Except String Nat))
      (fun _ _ => true) (fun _ => 7) 2 1000 30000 (fun _ => Nat.lt_of_sub_eq_succ rfl)).1,
   rfl⟩

theorem cleanupOldRunStates_witness :
    (cleanupOldRunStates
      { runStates :=
          [("a", { createRunState "a" "collect" with status := RunStatus.RUNNING_X }),
           ("b", { createRunState "b" "collect" with status := RunStatus.COMPLETED })]
        pendingRunId := none
        triggers := [] } 1).1.runStates =
      (([("a", { createRunState "a" "collect" with status := RunStatus.RUNNING_X }),
         ("b", { createRunState "b" "collect" with status := RunStatus.COMPLETED })] :
          List (String × RunState)).filter (fun p =>
        p.1 ∈ (((listAllRunIds
          { runStates :=
              [("a", { createRunState "a" "collect" with status := RunStatus.RUNNING_X }),
               ("b", { createRunState "b" "collect" with status := RunStatus.COMPLETED })]
            pendingRunId := none
            triggers := [] }).mergeSort (fun a b => a ≤ b)).reverse.take 1))) :=
  (cleanupOldRunStates_keeps_newest
    { runStates :=
        [("a", { createRunState "a" "collect" with status := RunStatus.RUNNING_X }),
         ("b", { createRunState "b" "collect" with status := RunStatus.COMPLETED })]
      pendingRunId := none
      triggers := [] } 1 (by decide)).1
